import Mathlib

deriving instance DecidableEq for Except

/-!
A shallow embedding of `atop_parser_mem.py`: the line-oriented atop log parser
(`parse_atop_log`), the directory aggregator (`parse_atop_directory`) and the
report generator (`generate_report`), together with theorems about the claims
of the specification.

Lines of a file are modelled as `List Char` (Python iterates a text file line
by line; the regexes use `re.match`, i.e. anchored-at-start, unanchored-at-end
semantics).  A file that cannot be opened is modelled as `none`; Python
exceptions are modelled by `Except PyErr`.  All three regexes of the source
consist of literal pieces, greedy character classes (`\w+`, `\s+`, `[\d.]+`),
fixed-width digit groups (`\d{4}`, `\d{2}`) and the one-character alternation
`(G|M)`; every character class is disjoint from the character that follows it
in the pattern, so greedy matching without backtracking is exactly the regex
semantics, and the matchers below implement that.
-/

namespace Atop

/-- Python regex `\w` (ASCII part): letters, digits, underscore. -/
def isWordChar (c : Char) : Bool := c.isAlphanum || c = '_'

/-- Python regex `\s` (ASCII part): space, tab, LF, CR, VT, FF. -/
def isSpaceChar (c : Char) : Bool :=
  c = ' ' || c = '\t' || c = '\n' || c = '\r' || c = '\x0b' || c = '\x0c'

/-- Consume an exact literal piece of a regex from the front of `s`;
returns the rest on success. -/
def dropLit : List Char → List Char → Option (List Char)
  | [], s => some s
  | p :: ps, c :: cs => if c = p then dropLit ps cs else none
  | _ :: _, [] => none

/-- Greedy one-or-more repetition of a character class: `some (matched, rest)`
when at least one leading character is in the class. -/
def takeWhile1 (cl : Char → Bool) (s : List Char) : Option (List Char × List Char) :=
  if s.takeWhile cl = [] then none else some (s.takeWhile cl, s.dropWhile cl)

/-- Greedy `\s+`, keeping only the rest of the input. -/
def skipSpaces1 (s : List Char) : Option (List Char) :=
  match takeWhile1 isSpaceChar s with
  | none => none
  | some (_, r) => some r

/-- `\d{n}`: exactly `n` digits, read left to right into a number. -/
def takeDigits : Nat → Nat → List Char → Option (Nat × List Char)
  | 0, acc, s => some (acc, s)
  | _ + 1, _, [] => none
  | n + 1, acc, c :: cs =>
    if c.isDigit then takeDigits n (acc * 10 + (c.toNat - 48)) cs else none

/-- The timestamp regex
`ATOP - \w+\s+(\d{4}/\d{2}/\d{2}\s+\d{2}:\d{2}:\d{2})` under `re.match`:
the captured group is returned as its six numeric components
(year, month, day, hour, minute, second). -/
def tsMatch (line : List Char) : Option (Nat × Nat × Nat × Nat × Nat × Nat) :=
  (dropLit "ATOP - ".toList line).bind fun s0 =>
  (takeWhile1 isWordChar s0).bind fun w =>
  (skipSpaces1 w.2).bind fun s1 =>
  (takeDigits 4 0 s1).bind fun y =>
  (dropLit ['/'] y.2).bind fun s2 =>
  (takeDigits 2 0 s2).bind fun mo =>
  (dropLit ['/'] mo.2).bind fun s3 =>
  (takeDigits 2 0 s3).bind fun d =>
  (skipSpaces1 d.2).bind fun s4 =>
  (takeDigits 2 0 s4).bind fun h =>
  (dropLit [':'] h.2).bind fun s5 =>
  (takeDigits 2 0 s5).bind fun mi =>
  (dropLit [':'] mi.2).bind fun s6 =>
  (takeDigits 2 0 s6).map fun sec =>
  (y.1, mo.1, d.1, h.1, mi.1, sec.1)

/-- The unit letter of a memory/swap value: `(G|M)`. -/
inductive MUnit
  | G
  | M
deriving DecidableEq, Repr

/-- The one-character alternation `(G|M)`. -/
def unitChar : List Char → Option (MUnit × List Char)
  | 'G' :: cs => some (.G, cs)
  | 'M' :: cs => some (.M, cs)
  | _ => none

/-- `([\d.]+)(G|M)`: the greedy digits-and-dots group (returned verbatim,
as the regex group is a string) followed by the unit letter. -/
def numUnit (s : List Char) : Option ((List Char × MUnit) × List Char) :=
  (takeWhile1 (fun c => c.isDigit || c = '.') s).bind fun g =>
  (unitChar g.2).map fun u => ((g.1, u.1), u.2)

/-- Common shape of the MEM and SWP regexes:
`<head>\s+([\d.]+)(G|M) \| free\s+([\d.]+)(G|M)` under `re.match`,
where `<head>` is `MEM \| tot` resp. `SWP \| tot`. -/
def memLike (head : List Char) (line : List Char) :
    Option ((List Char × MUnit) × (List Char × MUnit)) :=
  (dropLit head line).bind fun s0 =>
  (skipSpaces1 s0).bind fun s1 =>
  (numUnit s1).bind fun a =>
  (dropLit " | free".toList a.2).bind fun s2 =>
  (skipSpaces1 s2).bind fun s3 =>
  (numUnit s3).map fun b => (a.1, b.1)

/-- The MEM line regex `MEM \| tot\s+([\d.]+)(G|M) \| free\s+([\d.]+)(G|M)`. -/
def memMatch : List Char → Option ((List Char × MUnit) × (List Char × MUnit)) :=
  memLike "MEM | tot".toList

/-- The SWP line regex `SWP \| tot\s+([\d.]+)(G|M) \| free\s+([\d.]+)(G|M)`. -/
def swpMatch : List Char → Option ((List Char × MUnit) × (List Char × MUnit)) :=
  memLike "SWP | tot".toList

/-- The numeric value of a digit string, read left to right. -/
def digitsVal (ds : List Char) : Nat :=
  ds.foldl (fun a c => a * 10 + (c.toNat - 48)) 0

/-- Python `float()` applied to a regex group drawn from the class `[\d.]+`:
it succeeds exactly when the string has at most one dot and at least one
digit (`float("1.2.3")` and `float(".")` raise `ValueError`), and then the
value is the decimal number the string denotes.  The result is modelled as
an exact rational; every numeric fact proved below is exact in binary
floating point as well (integer values and divisions by the power of two
1024 only). -/
def pyFloat (ds : List Char) : Option ℚ :=
  if (∀ c ∈ ds, c.isDigit ∨ c = '.') ∧ ds.count '.' ≤ 1 ∧ (∃ c ∈ ds, c.isDigit) then
    some ((digitsVal (ds.takeWhile fun c => c ≠ '.') : ℚ) +
      (digitsVal ((ds.dropWhile fun c => c ≠ '.').drop 1) : ℚ) /
        (10 : ℚ) ^ ((ds.dropWhile fun c => c ≠ '.').drop 1).length)
  else none

/-- Unit normalisation of `parse_atop_log`: a value tagged `M` is divided by
1024, a value tagged `G` is used as-is. -/
def toGiB (v : ℚ) : MUnit → ℚ
  | .M => v / 1024
  | .G => v

/-- A parsed timestamp (the six fields of a Python `datetime`). -/
structure DateTime where
  year : Nat
  month : Nat
  day : Nat
  hour : Nat
  minute : Nat
  second : Nat
deriving DecidableEq, Repr

/-- Gregorian leap year, as Python's `datetime` uses it. -/
def isLeap (y : Nat) : Bool := y % 4 == 0 && (y % 100 != 0 || y % 400 == 0)

/-- Days in a month, as Python's `datetime` uses it. -/
def daysInMonth (y m : Nat) : Nat :=
  if m = 2 then (if isLeap y then 29 else 28)
  else if m = 4 ∨ m = 6 ∨ m = 9 ∨ m = 11 then 30
  else 31

/-- `datetime.strptime(s, "%Y/%m/%d %H:%M:%S")` on a string whose shape the
timestamp regex has already fixed: it raises `ValueError` unless the fields
form a valid calendar date-time (year ≥ 1, month 1..12, day valid for the
month, hour ≤ 23, minute ≤ 59, second ≤ 59). -/
def mkDateTime (y mo d h mi s : Nat) : Option DateTime :=
  if 1 ≤ y ∧ 1 ≤ mo ∧ mo ≤ 12 ∧ 1 ≤ d ∧ d ≤ daysInMonth y mo ∧ h ≤ 23 ∧ mi ≤ 59 ∧ s ≤ 59 then
    some ⟨y, mo, d, h, mi, s⟩
  else none

/-- One output row of the parser, with the field names of the source's dict. -/
structure Sample where
  timestamp : DateTime
  mem_tot : ℚ
  mem_free : ℚ
  swp_tot : ℚ
  swp_free : ℚ
deriving DecidableEq, Repr

/-- The Python exceptions the program can raise. -/
inductive PyErr
  | valueError
  | fileNotFound
deriving DecidableEq, Repr

/-- The per-file parse state of `parse_atop_log`: `current_timestamp`
(initially `None`) and the pair `(mem_tot, mem_free)` of function locals,
whose presence the source tests with `'mem_tot' in locals()`. -/
structure PState where
  ts : Option DateTime
  mem : Option (ℚ × ℚ)
deriving DecidableEq, Repr

/-- The MEM block of the loop body: when the MEM regex matches and
`current_timestamp` is set, run `float` on the two groups (a failure raises
`ValueError`) and overwrite the memory locals with the GiB-normalised pair;
otherwise the state is untouched. -/
def memStep (st : PState) (line : List Char) : Except PyErr PState :=
  match memMatch line, st.ts with
  | some ((a, ua), (b, ub)), some _ =>
    match pyFloat a, pyFloat b with
    | some va, some vb => .ok { st with mem := some (toGiB va ua, toGiB vb ub) }
    | _, _ => .error .valueError
  | _, _ => .ok st

/-- One iteration of the `for line in file` loop of `parse_atop_log`:
try the timestamp regex (on a match, `strptime` then `continue`); otherwise
run the MEM block; then try the SWP regex on the same line and emit a row
only when both the timestamp and the memory locals are present.  `float` and
`strptime` failures abort the whole call with `ValueError`. -/
def processLine (st : PState) (line : List Char) : Except PyErr (PState × Option Sample) :=
  match tsMatch line with
  | some (y, mo, d, h, mi, sec) =>
    match mkDateTime y mo d h mi sec with
    | some t => .ok ({ st with ts := some t }, none)
    | none => .error .valueError
  | none =>
    match memStep st line with
    | .error e => .error e
    | .ok st1 =>
      match swpMatch line, st1.ts, st1.mem with
      | some ((a, ua), (b, ub)), some t, some (mt, mf) =>
        match pyFloat a, pyFloat b with
        | some va, some vb => .ok (st1, some ⟨t, mt, mf, toGiB va ua, toGiB vb ub⟩)
        | _, _ => .error .valueError
      | _, _, _ => .ok (st1, none)

/-- The loop of `parse_atop_log` over the lines of one file, collecting the
emitted rows in order; an exception aborts the whole run. -/
def runLines : PState → List (List Char) → Except PyErr (List Sample)
  | _, [] => .ok []
  | st, l :: ls =>
    match processLine st l with
    | .error e => .error e
    | .ok (st1, none) => runLines st1 ls
    | .ok (st1, some smp) =>
      match runLines st1 ls with
      | .error e => .error e
      | .ok rest => .ok (smp :: rest)

/-- `parse_atop_log`: `none` models a file that cannot be opened
(`open` raises `FileNotFoundError`); otherwise the state starts fresh
(`current_timestamp = None`, no memory locals) and the lines are scanned. -/
def parse_atop_log (file : Option (List (List Char))) : Except PyErr (List Sample) :=
  match file with
  | none => .error .fileNotFound
  | some lines => runLines ⟨none, none⟩ lines

/-- Sort key of a timestamp: lexicographic in
(year, month, day, hour, minute, second), as `datetime` ordering is. -/
def DateTime.key (t : DateTime) : Nat :=
  ((((t.year * 13 + t.month) * 32 + t.day) * 24 + t.hour) * 60 + t.minute) * 60 + t.second

/-- `merged_data.sort_values('timestamp')`: pandas guarantees the result is a
permutation of the rows that is sorted by timestamp ascending; with the
default `kind='quicksort'` the relative order of rows with equal timestamps
is not specified.  Modelled with a stable merge sort; no theorem below about
tie order relies on this modelling choice. -/
def sortByTs (l : List Sample) : List Sample :=
  l.mergeSort fun a b => Nat.ble a.timestamp.key b.timestamp.key

/-- The `for file_path in files` loop of `parse_atop_directory`: `all_data`
collects, in file order, the row lists of the files that parsed without an
exception and produced at least one row; a per-file exception is caught and
only reported. -/
def collectData (files : List (Option (List (List Char)))) : List (List Sample) :=
  files.filterMap fun f =>
    match parse_atop_log f with
    | .error _ => none
    | .ok rows => if rows = [] then none else some rows

/-- `parse_atop_directory`: `none` models a path that is not a directory
(the source raises `FileNotFoundError`); a directory is the list of its
files, each a `parse_atop_log` input.  An empty directory and an empty
`all_data` both return an empty result; otherwise the collected rows are
concatenated and sorted by timestamp. -/
def parse_atop_directory (dir : Option (List (Option (List (List Char))))) :
    Except PyErr (List Sample) :=
  match dir with
  | none => .error .fileNotFound
  | some files =>
    if files = [] then .ok []
    else if collectData files = [] then .ok []
    else .ok (sortByTs (collectData files).flatten)

/-- `generate_report`, modelled by the list of file names it writes, in
order: nothing when the data is empty, otherwise the CSV and the PNG chart,
and the HTML report when the flag is set. -/
def generate_report (data : List Sample) (outName : List Char) (genHtml : Bool) :
    List (List Char) :=
  if data = [] then []
  else
    [outName ++ ".csv".toList, outName ++ "_memory_swap.png".toList] ++
      (if genHtml then [outName ++ "_memory_swap.html".toList] else [])

/-- A line on which `parse_atop_log` cannot raise, whatever the parse state:
a matched timestamp is a valid calendar date-time, and the numeric groups of
a matched MEM/SWP line are well-formed floats. -/
def lineOK (l : List Char) : Bool :=
  match tsMatch l with
  | some (y, mo, d, h, mi, s) => (mkDateTime y mo d h mi s).isSome
  | none =>
    match memMatch l with
    | some ((a, _), (b, _)) => (pyFloat a).isSome && (pyFloat b).isSome
    | none =>
      match swpMatch l with
      | some ((a, _), (b, _)) => (pyFloat a).isSome && (pyFloat b).isSome
      | none => true

/-! ## Helper lemmas -/

/-- The literal of the timestamp regex, as characters. -/
lemma atopChars : "ATOP - ".toList = ['A', 'T', 'O', 'P', ' ', '-', ' '] := rfl

/-- The literal of the MEM regex, as characters. -/
lemma memChars : "MEM | tot".toList = ['M', 'E', 'M', ' ', '|', ' ', 't', 'o', 't'] := rfl

/-- The literal of the SWP regex, as characters. -/
lemma swpChars : "SWP | tot".toList = ['S', 'W', 'P', ' ', '|', ' ', 't', 'o', 't'] := rfl

/-- Consuming a literal that is literally there succeeds. -/
lemma dropLit_append (p s : List Char) : dropLit p (p ++ s) = some s := by
  induction p with
  | nil => rfl
  | cons c cs ih => simp [dropLit, ih]

/-- A `memLike` pattern only matches lines starting with its first literal
character. -/
lemma memLike_some_head {c : Char} {t l : List Char} {x}
    (h : memLike (c :: t) l = some x) : ∃ r, l = c :: r := by
  cases l with
  | nil => simp [memLike, dropLit] at h
  | cons c' r =>
    by_cases hc : c' = c
    · exact ⟨r, by rw [hc]⟩
    · simp [memLike, dropLit, hc] at h

/-- A `memLike` pattern fails on a line whose first character differs. -/
lemma memLike_none_of_head {c c' : Char} {t r : List Char} (h : c' ≠ c) :
    memLike (c :: t) (c' :: r) = none := by
  simp [memLike, dropLit, h]

/-- The timestamp regex fails on a line not starting with `A`. -/
lemma tsMatch_none_of_head {c : Char} {r : List Char} (h : c ≠ 'A') :
    tsMatch (c :: r) = none := by
  simp [tsMatch, atopChars, dropLit, h]

/-- The timestamp regex only matches lines starting with `A`. -/
lemma tsMatch_some_head {l : List Char} {x} (h : tsMatch l = some x) :
    ∃ r, l = 'A' :: r := by
  cases l with
  | nil => simp [tsMatch, atopChars, dropLit] at h
  | cons c r =>
    by_cases hc : c = 'A'
    · exact ⟨r, by rw [hc]⟩
    · rw [tsMatch_none_of_head hc] at h; cases h

/-- A line matching the MEM regex starts with `M`, so it matches neither the
timestamp regex nor the SWP regex. -/
lemma memMatch_heads {l : List Char} {x} (h : memMatch l = some x) :
    tsMatch l = none ∧ swpMatch l = none := by
  rw [memMatch, memChars] at h
  obtain ⟨r, rfl⟩ := memLike_some_head h
  exact ⟨tsMatch_none_of_head (by decide),
    by rw [swpMatch, swpChars]; exact memLike_none_of_head (by decide)⟩

/-- A line matching the SWP regex starts with `S`, so it matches neither the
timestamp regex nor the MEM regex. -/
lemma swpMatch_heads {l : List Char} {x} (h : swpMatch l = some x) :
    tsMatch l = none ∧ memMatch l = none := by
  rw [swpMatch, swpChars] at h
  obtain ⟨r, rfl⟩ := memLike_some_head h
  exact ⟨tsMatch_none_of_head (by decide),
    by rw [memMatch, memChars]; exact memLike_none_of_head (by decide)⟩

/-- On a line the MEM regex does not match, the MEM block leaves the state
untouched and cannot raise. -/
lemma memStep_of_none {st : PState} {line : List Char} (h : memMatch line = none) :
    memStep st line = .ok st := by
  simp [memStep, h]

/-- Loop body on a valid timestamp line: the timestamp is overwritten,
nothing else happens. -/
lemma processLine_ts {st : PState} {line : List Char} {y mo d hr mi sec : Nat}
    {t : DateTime} (h1 : tsMatch line = some (y, mo, d, hr, mi, sec))
    (h2 : mkDateTime y mo d hr mi sec = some t) :
    processLine st line = .ok ({ st with ts := some t }, none) := by
  simp [processLine, h1, h2]

/-- Loop body on a MEM line with a timestamp in scope and well-formed
numbers: the memory fragment is overwritten, nothing is emitted. -/
lemma processLine_mem {st : PState} {line a b : List Char} {ua ub : MUnit}
    {va vb : ℚ} {t : DateTime} (h1 : memMatch line = some ((a, ua), (b, ub)))
    (hts : st.ts = some t) (ha : pyFloat a = some va) (hb : pyFloat b = some vb) :
    processLine st line = .ok ({ st with mem := some (toGiB va ua, toGiB vb ub) }, none) := by
  obtain ⟨hts0, hswp⟩ := memMatch_heads h1
  simp [processLine, memStep, hts0, h1, hts, ha, hb, hswp]

/-- Loop body on a SWP line with both the timestamp and the memory fragment
in scope and well-formed numbers: a Sample is emitted and the state is left
unchanged. -/
lemma processLine_swp_emit {st : PState} {line a b : List Char} {ua ub : MUnit}
    {va vb mt mf : ℚ} {t : DateTime} (h1 : swpMatch line = some ((a, ua), (b, ub)))
    (hts : st.ts = some t) (hmem : st.mem = some (mt, mf))
    (ha : pyFloat a = some va) (hb : pyFloat b = some vb) :
    processLine st line = .ok (st, some ⟨t, mt, mf, toGiB va ua, toGiB vb ub⟩) := by
  obtain ⟨hts0, hmm⟩ := swpMatch_heads h1
  simp [processLine, memStep_of_none hmm, hts0, h1, hts, hmem, ha, hb]

/-- Loop body on a SWP line when the timestamp or the memory fragment is
missing: the line is silently dropped (no Sample, no error, no state
change). -/
lemma processLine_swp_drop {st : PState} {line : List Char} {x}
    (h1 : swpMatch line = some x) (h2 : st.ts = none ∨ st.mem = none) :
    processLine st line = .ok (st, none) := by
  obtain ⟨hts0, hmm⟩ := swpMatch_heads h1
  obtain ⟨⟨a, ua⟩, b, ub⟩ := x
  rcases h2 with h2 | h2
  · simp [processLine, memStep_of_none hmm, hts0, h1, h2]
  · cases hts : st.ts <;> simp [processLine, memStep_of_none hmm, hts0, h1, h2, hts]

/-- Loop body on a line matching none of the three regexes: nothing
happens. -/
lemma processLine_skip {st : PState} {line : List Char} (h1 : tsMatch line = none)
    (h2 : memMatch line = none) (h3 : swpMatch line = none) :
    processLine st line = .ok (st, none) := by
  simp [processLine, memStep_of_none h2, h1, h3]

/-- Inversion of an emission: a Sample can only come out of a SWP match with
the timestamp and memory fragment present, the state is returned unchanged
(in particular the memory fragment is never cleared), the emitted row reuses
the stored timestamp and memory pair, and its swap fields are the
GiB-normalised floats of the line. -/
lemma processLine_emit_inv {st st1 : PState} {line : List Char} {smp : Sample}
    (h : processLine st line = .ok (st1, some smp)) :
    st1 = st ∧ st.ts = some smp.timestamp ∧ st.mem = some (smp.mem_tot, smp.mem_free) ∧
    ∃ a ua b ub va vb, swpMatch line = some ((a, ua), (b, ub)) ∧
      pyFloat a = some va ∧ pyFloat b = some vb ∧
      smp.swp_tot = toGiB va ua ∧ smp.swp_free = toGiB vb ub := by
  cases hts : tsMatch line with
  | some g =>
    obtain ⟨y, mo, d, hr, mi, sec⟩ := g
    cases hmk : mkDateTime y mo d hr mi sec <;> simp [processLine, hts, hmk] at h
  | none =>
    cases hswp : swpMatch line with
    | none =>
      cases hms : memStep st line with
      | error e => simp [processLine, hts, hms] at h
      | ok st' => simp [processLine, hts, hms, hswp] at h
    | some x =>
      obtain ⟨⟨a, ua⟩, b, ub⟩ := x
      obtain ⟨-, hmm⟩ := swpMatch_heads hswp
      cases hst : st.ts with
      | none => simp [processLine, hts, memStep_of_none hmm, hswp, hst] at h
      | some t =>
        cases hsm : st.mem with
        | none => simp [processLine, hts, memStep_of_none hmm, hswp, hst, hsm] at h
        | some p =>
          obtain ⟨mt, mf⟩ := p
          cases ha : pyFloat a with
          | none => simp [processLine, hts, memStep_of_none hmm, hswp, hst, hsm, ha] at h
          | some va =>
            cases hb : pyFloat b with
            | none =>
              simp [processLine, hts, memStep_of_none hmm, hswp, hst, hsm, ha, hb] at h
            | some vb =>
              simp [processLine, hts, memStep_of_none hmm, hswp, hst, hsm, ha, hb] at h
              obtain ⟨h1, h2⟩ := h
              subst h1
              subst h2
              exact ⟨rfl, rfl, rfl, a, ua, b, ub, va, vb, rfl, ha, hb, rfl, rfl⟩

/-- `\s+` fails on input starting with a non-space character. -/
lemma skipSpaces1_none {c : Char} {r : List Char} (h : isSpaceChar c = false) :
    skipSpaces1 (c :: r) = none := by
  simp [skipSpaces1, takeWhile1, List.takeWhile_cons, h]

/-- After dropping word characters from a space-free token that contains a
non-word character, `\s+` fails, whatever comes afterwards. -/
lemma dropWord_space_fail {α : Type} (k : List Char → Option α) (host rest : List Char)
    (hsp : ∀ c ∈ host, isSpaceChar c = false)
    (hbad : ∃ c ∈ host, isWordChar c = false) :
    (skipSpaces1 ((host ++ rest).dropWhile isWordChar)).bind k = none := by
  induction host with
  | nil => simp at hbad
  | cons c hs ih =>
    by_cases hw : isWordChar c
    · have hbad' : ∃ d ∈ hs, isWordChar d = false := by
        rcases hbad with ⟨d, hd, hbd⟩
        rcases List.mem_cons.mp hd with rfl | hd'
        · rw [hw] at hbd; cases hbd
        · exact ⟨d, hd', hbd⟩
      have hsp' : ∀ d ∈ hs, isSpaceChar d = false :=
        fun d hd => hsp d (List.mem_cons_of_mem _ hd)
      simpa [List.dropWhile_cons, hw] using ih hsp' hbad'
    · have hc : isSpaceChar c = false := hsp c (List.mem_cons_self _ _)
      simp [List.dropWhile_cons, hw, skipSpaces1_none hc]

/-- The `\w+\s+` scan of the timestamp regex fails on a space-free hostname
containing a non-word character, whatever continuation follows. -/
lemma scanFail {α : Type} (k : List Char → Option α) (host rest : List Char)
    (hsp : ∀ c ∈ host, isSpaceChar c = false)
    (hbad : ∃ c ∈ host, isWordChar c = false) :
    ((takeWhile1 isWordChar (host ++ rest)).bind fun w => (skipSpaces1 w.2).bind k) = none := by
  cases host with
  | nil => simp at hbad
  | cons c hs =>
    by_cases hw : isWordChar c
    · have hbad' : ∃ d ∈ hs, isWordChar d = false := by
        rcases hbad with ⟨d, hd, hbd⟩
        rcases List.mem_cons.mp hd with rfl | hd'
        · rw [hw] at hbd; cases hbd
        · exact ⟨d, hd', hbd⟩
      have hsp' : ∀ d ∈ hs, isSpaceChar d = false :=
        fun d hd => hsp d (List.mem_cons_of_mem _ hd)
      have ht : takeWhile1 isWordChar ((c :: hs) ++ rest) =
          some (c :: (hs ++ rest).takeWhile isWordChar, (hs ++ rest).dropWhile isWordChar) := by
        simp [takeWhile1, List.takeWhile_cons, List.dropWhile_cons, hw]
      rw [ht]
      exact dropWord_space_fail k hs rest hsp' hbad'
    · simp [takeWhile1, List.takeWhile_cons, hw]

/-- The timestamp regex rejects any header whose hostname token is
whitespace-free but contains a non-word character. -/
lemma tsMatch_badHost (host rest : List Char)
    (hsp : ∀ c ∈ host, isSpaceChar c = false)
    (hbad : ∃ c ∈ host, isWordChar c = false) :
    tsMatch ("ATOP - ".toList ++ host ++ rest) = none := by
  have h0 : dropLit "ATOP - ".toList ("ATOP - ".toList ++ (host ++ rest)) =
      some (host ++ rest) := dropLit_append _ _
  rw [List.append_assoc]
  simp only [tsMatch, h0, Option.bind_some]
  exact scanFail _ host rest hsp hbad

/-- Values produced by Python `float` on `[\d.]+` groups are nonnegative. -/
lemma pyFloat_nonneg {ds : List Char} {v : ℚ} (h : pyFloat ds = some v) : 0 ≤ v := by
  unfold pyFloat at h
  split at h
  · have h' := Option.some.inj h
    rw [← h']
    positivity
  · cases h

/-- GiB normalisation preserves nonnegativity. -/
lemma toGiB_nonneg {v : ℚ} (u : MUnit) (h : 0 ≤ v) : 0 ≤ toGiB v u := by
  cases u
  · exact h
  · exact div_nonneg h (by norm_num)

/-- The MEM block either keeps the memory fragment or replaces it with the
GiB-normalised pair of two parsed floats. -/
lemma memStep_cases {st stm : PState} {line : List Char} (h : memStep st line = .ok stm) :
    stm.mem = st.mem ∨ ∃ a ua b ub va vb, memMatch line = some ((a, ua), (b, ub)) ∧
      pyFloat a = some va ∧ pyFloat b = some vb ∧
      stm.mem = some (toGiB va ua, toGiB vb ub) := by
  cases hmm : memMatch line with
  | none =>
    rw [memStep_of_none hmm] at h
    left; rw [← Except.ok.inj h]
  | some x =>
    obtain ⟨⟨a, ua⟩, b, ub⟩ := x
    cases hst : st.ts with
    | none =>
      simp [memStep, hmm, hst] at h
      left; rw [← h]
    | some t =>
      cases ha : pyFloat a with
      | none => simp [memStep, hmm, hst, ha] at h
      | some va =>
        cases hb : pyFloat b with
        | none => simp [memStep, hmm, hst, ha, hb] at h
        | some vb =>
          simp [memStep, hmm, hst, ha, hb] at h
          right
          exact ⟨a, ua, b, ub, va, vb, rfl, ha, hb, by rw [← h]⟩

/-- After a successful loop iteration the memory fragment is either
unchanged or the GiB-normalised pair of two parsed floats. -/
lemma processLine_mem_cases {st st1 : PState} {line : List Char} {o : Option Sample}
    (h : processLine st line = .ok (st1, o)) :
    st1.mem = st.mem ∨ ∃ a ua b ub va vb, memMatch line = some ((a, ua), (b, ub)) ∧
      pyFloat a = some va ∧ pyFloat b = some vb ∧
      st1.mem = some (toGiB va ua, toGiB vb ub) := by
  cases hts : tsMatch line with
  | some g =>
    obtain ⟨y, mo, d, hr, mi, sec⟩ := g
    cases hmk : mkDateTime y mo d hr mi sec with
    | none => simp [processLine, hts, hmk] at h
    | some t =>
      simp [processLine, hts, hmk] at h
      left; rw [← h.1]
  | none =>
    cases hms : memStep st line with
    | error e => simp [processLine, hts, hms] at h
    | ok stm =>
      have hs1 : st1 = stm := by
        cases hswp : swpMatch line with
        | none =>
          simp [processLine, hts, hms, hswp] at h
          exact h.1.symm
        | some x =>
          obtain ⟨⟨a, ua⟩, b, ub⟩ := x
          cases h1 : stm.ts with
          | none =>
            simp [processLine, hts, hms, hswp, h1] at h
            exact h.1.symm
          | some t =>
            cases h2 : stm.mem with
            | none =>
              simp [processLine, hts, hms, hswp, h1, h2] at h
              exact h.1.symm
            | some p =>
              obtain ⟨mt, mf⟩ := p
              cases ha : pyFloat a with
              | none => simp [processLine, hts, hms, hswp, h1, h2, ha] at h
              | some va =>
                cases hb : pyFloat b with
                | none => simp [processLine, hts, hms, hswp, h1, h2, ha, hb] at h
                | some vb =>
                  simp [processLine, hts, hms, hswp, h1, h2, ha, hb] at h
                  exact h.1.symm
      rw [hs1]
      exact memStep_cases hms

/-- A `lineOK` line can never raise, whatever the current state. -/
lemma processLine_ok_of_lineOK {line : List Char} (st : PState) (h : lineOK line = true) :
    ∃ r, processLine st line = .ok r := by
  cases hts : tsMatch line with
  | some g =>
    obtain ⟨y, mo, d, hr, mi, sec⟩ := g
    simp only [lineOK, hts, Option.isSome_iff_exists] at h
    obtain ⟨t, ht⟩ := h
    exact ⟨_, processLine_ts hts ht⟩
  | none =>
    cases hmm : memMatch line with
    | some x =>
      obtain ⟨⟨a, ua⟩, b, ub⟩ := x
      simp only [lineOK, hts, hmm, Bool.and_eq_true, Option.isSome_iff_exists] at h
      obtain ⟨⟨va, ha⟩, vb, hb⟩ := h
      cases hst : st.ts with
      | none =>
        have hswp := (memMatch_heads hmm).2
        exact ⟨(st, none), by simp [processLine, memStep, hts, hmm, hst, hswp]⟩
      | some t => exact ⟨_, processLine_mem hmm hst ha hb⟩
    | none =>
      cases hswp : swpMatch line with
      | some x =>
        obtain ⟨⟨a, ua⟩, b, ub⟩ := x
        simp only [lineOK, hts, hmm, hswp, Bool.and_eq_true, Option.isSome_iff_exists] at h
        obtain ⟨⟨va, ha⟩, vb, hb⟩ := h
        cases hst : st.ts with
        | none => exact ⟨_, processLine_swp_drop hswp (Or.inl hst)⟩
        | some t =>
          cases hsm : st.mem with
          | none => exact ⟨_, processLine_swp_drop hswp (Or.inr hsm)⟩
          | some p =>
            obtain ⟨mt, mf⟩ := p
            exact ⟨_, processLine_swp_emit hswp hst hsm ha hb⟩
      | none => exact ⟨_, processLine_skip hts hmm hswp⟩

/-- Files all of whose lines are `lineOK` parse without an exception. -/
lemma runLines_ok (lines : List (List Char)) (h : ∀ l ∈ lines, lineOK l = true) :
    ∀ st, ∃ samples, runLines st lines = .ok samples := by
  induction lines with
  | nil => exact fun st => ⟨[], rfl⟩
  | cons l ls ih =>
    intro st
    obtain ⟨⟨st1, o⟩, hp⟩ := processLine_ok_of_lineOK st (h l (List.mem_cons_self _ _))
    obtain ⟨rest, hr⟩ := ih (fun l' hl' => h l' (List.mem_cons_of_mem _ hl')) st1
    cases o with
    | none => exact ⟨rest, by simp only [runLines, hp, hr]⟩
    | some smp => exact ⟨smp :: rest, by simp only [runLines, hp, hr]⟩

/-- Rows produced by the loop have nonnegative numeric fields, provided the
memory fragment stored in the entry state (if any) is nonnegative. -/
lemma runLines_nonneg {st : PState} {lines : List (List Char)} {samples : List Sample}
    (hst : ∀ p : ℚ × ℚ, st.mem = some p → 0 ≤ p.1 ∧ 0 ≤ p.2)
    (h : runLines st lines = .ok samples) :
    ∀ s ∈ samples, 0 ≤ s.mem_tot ∧ 0 ≤ s.mem_free ∧ 0 ≤ s.swp_tot ∧ 0 ≤ s.swp_free := by
  induction lines generalizing st samples with
  | nil =>
    simp only [runLines, Except.ok.injEq] at h
    subst h
    intro s hs
    cases hs
  | cons l ls ih =>
    cases hp : processLine st l with
    | error e =>
      simp only [runLines, hp] at h
      exact Except.noConfusion h
    | ok r =>
      obtain ⟨st1, o⟩ := r
      have hst1 : ∀ p : ℚ × ℚ, st1.mem = some p → 0 ≤ p.1 ∧ 0 ≤ p.2 := by
        rcases processLine_mem_cases hp with hsame | ⟨a, ua, b, ub, va, vb, -, ha, hb, hm⟩
        · intro p hpmem
          exact hst p (hsame ▸ hpmem)
        · intro p hpmem
          rw [hm] at hpmem
          cases Option.some.inj hpmem
          exact ⟨toGiB_nonneg ua (pyFloat_nonneg ha), toGiB_nonneg ub (pyFloat_nonneg hb)⟩
      cases o with
      | none =>
        simp only [runLines, hp] at h
        exact ih hst1 h
      | some smp =>
        cases hr : runLines st1 ls with
        | error e =>
          simp only [runLines, hp, hr] at h
          exact Except.noConfusion h
        | ok rest =>
          simp only [runLines, hp, hr, Except.ok.injEq] at h
          subst h
          intro s hs
          rcases List.mem_cons.mp hs with rfl | hs'
          · obtain ⟨-, -, hmem', a, ua, b, ub, va, vb, -, ha, hb, e1, e2⟩ :=
              processLine_emit_inv hp
            have hmf := hst _ hmem'
            refine ⟨hmf.1, hmf.2, ?_, ?_⟩
            · rw [e1]; exact toGiB_nonneg ua (pyFloat_nonneg ha)
            · rw [e2]; exact toGiB_nonneg ub (pyFloat_nonneg hb)
          · exact ih hst1 hr s hs'

/-- GiB normalisation, written as the specification words it. -/
lemma toGiB_eq_ite (v : ℚ) (u : MUnit) : toGiB v u = if u = MUnit.M then v / 1024 else v := by
  cases u <;> rfl

/-- A row list collected by the directory loop: any file of the directory
that parses without exception to a non-empty row list contributes it. -/
lemma collectData_mem {files : List (Option (List (List Char)))}
    {f : Option (List (List Char))} {rows : List Sample}
    (hf : f ∈ files) (hp : parse_atop_log f = .ok rows) (hne : rows ≠ []) :
    rows ∈ collectData files := by
  refine List.mem_filterMap.mpr ⟨f, hf, ?_⟩
  simp [hp, hne]

/-- The directory parser never raises once the path is a directory: every
per-file exception is caught by the loop. -/
lemma parse_atop_directory_some_ok (files : List (Option (List (List Char)))) :
    ∃ m, parse_atop_directory (some files) = .ok m := by
  by_cases h1 : files = []
  · exact ⟨[], by simp [parse_atop_directory, h1]⟩
  · by_cases h2 : collectData files = []
    · exact ⟨[], by simp [parse_atop_directory, h1, h2]⟩
    · exact ⟨sortByTs (collectData files).flatten, by simp [parse_atop_directory, h1, h2]⟩

/-! ## The claims -/

section
attribute [local semireducible] Rat.add Rat.mul Rat.inv

/-- C1: a memory or swap value tagged `M` is stored divided by 1024 and a
value tagged `G` is stored as-is, and the three-line example file yields
exactly one Sample with timestamp 2024-01-01T00:00:00, memory 16.0/8.0 GiB
and swap 2.0/1.0 GiB. -/
theorem C1_unit_normalisation :
    (∀ (st : PState) (line a b : List Char) (ua ub : MUnit) (va vb : ℚ) (t : DateTime),
      memMatch line = some ((a, ua), (b, ub)) → st.ts = some t →
      pyFloat a = some va → pyFloat b = some vb →
      processLine st line = .ok (⟨st.ts,
        some ((if ua = MUnit.M then va / 1024 else va),
          (if ub = MUnit.M then vb / 1024 else vb))⟩, none)) ∧
    (∀ (st : PState) (line a b : List Char) (ua ub : MUnit) (va vb mt mf : ℚ) (t : DateTime),
      swpMatch line = some ((a, ua), (b, ub)) → st.ts = some t → st.mem = some (mt, mf) →
      pyFloat a = some va → pyFloat b = some vb →
      processLine st line = .ok (st, some ⟨t, mt, mf,
        (if ua = MUnit.M then va / 1024 else va),
        (if ub = MUnit.M then vb / 1024 else vb)⟩)) ∧
    parse_atop_log (some ["ATOP - host 2024/01/01 00:00:00".toList,
      "MEM | tot 16.0G | free 8.0G".toList, "SWP | tot 2048M | free 1024M".toList]) =
      .ok [⟨⟨2024, 1, 1, 0, 0, 0⟩, 16, 8, 2, 1⟩] := by
  refine ⟨?_, ?_, by decide⟩
  · intro st line a b ua ub va vb t h1 hts ha hb
    have h := processLine_mem h1 hts ha hb
    simp only [toGiB_eq_ite] at h
    exact h
  · intro st line a b ua ub va vb mt mf t h1 hts hmem ha hb
    have h := processLine_swp_emit h1 hts hmem ha hb
    simp only [toGiB_eq_ite] at h
    exact h

/-- Witness for C1: both general conjuncts applied at concrete lines. -/
theorem C1_unit_normalisation_witness :
    processLine ⟨some ⟨2024, 1, 1, 0, 0, 0⟩, none⟩ "MEM | tot 2048M | free 1024M".toList =
      .ok (⟨some ⟨2024, 1, 1, 0, 0, 0⟩,
        some ((if MUnit.M = MUnit.M then (2048 : ℚ) / 1024 else 2048),
          (if MUnit.M = MUnit.M then (1024 : ℚ) / 1024 else 1024))⟩, none) ∧
    processLine ⟨some ⟨2024, 1, 1, 0, 0, 0⟩, some (16, 8)⟩ "SWP | tot 2G | free 1024M".toList =
      .ok (⟨some ⟨2024, 1, 1, 0, 0, 0⟩, some (16, 8)⟩, some ⟨⟨2024, 1, 1, 0, 0, 0⟩, 16, 8,
        (if MUnit.G = MUnit.M then (2 : ℚ) / 1024 else 2),
        (if MUnit.M = MUnit.M then (1024 : ℚ) / 1024 else 1024)⟩) :=
  ⟨C1_unit_normalisation.1 ⟨some ⟨2024, 1, 1, 0, 0, 0⟩, none⟩ _ "2048".toList "1024".toList
      .M .M 2048 1024 ⟨2024, 1, 1, 0, 0, 0⟩ (by decide) rfl (by decide) (by decide),
    C1_unit_normalisation.2.1 ⟨some ⟨2024, 1, 1, 0, 0, 0⟩, some (16, 8)⟩ _
      "2".toList "1024".toList .G .M 2 1024 16 8 ⟨2024, 1, 1, 0, 0, 0⟩
      (by decide) rfl rfl (by decide) (by decide)⟩

/-- C2 as frozen is false on the code: on this swap line the timestamp and
the memory fragment have both been seen, the SWP regex matches, and yet no
Sample is emitted — the parse aborts with ValueError because `float` rejects
the group `1.2.3`, which the class `[\d.]+` admits. -/
theorem C2_counterexample :
    (PState.mk (some ⟨2024, 1, 1, 0, 0, 0⟩) (some (1, 1))).ts.isSome = true ∧
    (PState.mk (some ⟨2024, 1, 1, 0, 0, 0⟩) (some (1, 1))).mem.isSome = true ∧
    (swpMatch "SWP | tot 1.2.3G | free 1G".toList).isSome = true ∧
    processLine (PState.mk (some ⟨2024, 1, 1, 0, 0, 0⟩) (some (1, 1)))
      "SWP | tot 1.2.3G | free 1G".toList = .error .valueError ∧
    parse_atop_log (some ["ATOP - host 2024/01/01 00:00:00".toList,
      "MEM | tot 1G | free 1G".toList, "SWP | tot 1.2.3G | free 1G".toList]) =
      .error .valueError := by
  decide

/-- C2 amended: a swap line emits a Sample iff the timestamp and memory
fragment are both set AND its two numeric groups parse as floats; when the
timestamp or the memory fragment is missing the line is silently dropped
(no Sample, no error, state unchanged). -/
theorem C2_swap_emission_amended (st : PState) (line a b : List Char) (ua ub : MUnit)
    (h : swpMatch line = some ((a, ua), (b, ub))) :
    ((∃ st1 smp, processLine st line = .ok (st1, some smp)) ↔
      st.ts.isSome ∧ st.mem.isSome ∧ (pyFloat a).isSome ∧ (pyFloat b).isSome) ∧
    (st.ts = none ∨ st.mem = none → processLine st line = .ok (st, none)) := by
  constructor
  · constructor
    · rintro ⟨st1, smp, hp⟩
      obtain ⟨-, hts, hmem, a', ua', b', ub', va, vb, hsw', ha, hb, -, -⟩ :=
        processLine_emit_inv hp
      rw [h] at hsw'
      simp only [Option.some.injEq, Prod.mk.injEq] at hsw'
      obtain ⟨⟨rfl, rfl⟩, rfl, rfl⟩ := hsw'
      exact ⟨by simp [hts], by simp [hmem], by simp [ha], by simp [hb]⟩
    · rintro ⟨h1, h2, h3, h4⟩
      obtain ⟨t, ht⟩ := Option.isSome_iff_exists.mp h1
      obtain ⟨p, hpm⟩ := Option.isSome_iff_exists.mp h2
      obtain ⟨mt, mf⟩ := p
      obtain ⟨va, ha⟩ := Option.isSome_iff_exists.mp h3
      obtain ⟨vb, hb⟩ := Option.isSome_iff_exists.mp h4
      exact ⟨st, _, processLine_swp_emit h ht hpm ha hb⟩
  · exact processLine_swp_drop h

/-- Witness for C2 amended: the iff and the silent drop at concrete states
and a concrete swap line. -/
theorem C2_swap_emission_amended_witness :
    (((∃ st1 smp, processLine ⟨some ⟨2024, 1, 1, 0, 0, 0⟩, some (16, 8)⟩
        "SWP | tot 2G | free 1G".toList = .ok (st1, some smp)) ↔
      (some (⟨2024, 1, 1, 0, 0, 0⟩ : DateTime)).isSome ∧
        (some ((16 : ℚ), (8 : ℚ))).isSome ∧
        (pyFloat "2".toList).isSome ∧ (pyFloat "1".toList).isSome) ∧
      ((some (⟨2024, 1, 1, 0, 0, 0⟩ : DateTime) = none ∨
          (some ((16 : ℚ), (8 : ℚ)) : Option (ℚ × ℚ)) = none) →
        processLine ⟨some ⟨2024, 1, 1, 0, 0, 0⟩, some (16, 8)⟩
          "SWP | tot 2G | free 1G".toList =
          .ok (⟨some ⟨2024, 1, 1, 0, 0, 0⟩, some (16, 8)⟩, none))) ∧
    processLine ⟨none, none⟩ "SWP | tot 2G | free 1G".toList = .ok (⟨none, none⟩, none) :=
  ⟨C2_swap_emission_amended ⟨some ⟨2024, 1, 1, 0, 0, 0⟩, some (16, 8)⟩ _
      "2".toList "1".toList .G .G (by decide),
    (C2_swap_emission_amended ⟨none, none⟩ _ "2".toList "1".toList .G .G
      (by decide)).2 (Or.inl rfl)⟩

/-- C3 as frozen is false on the code: both files open fine yet the parse
raises ValueError — a timestamp-matching line with month 13 makes
`strptime` raise, and a MEM line whose group `1.2.3` matches `[\d.]+` makes
`float` raise. -/
theorem C3_counterexample :
    parse_atop_log (some ["ATOP - host 2024/13/01 00:00:00".toList]) = .error .valueError ∧
    parse_atop_log (some ["ATOP - host 2024/01/01 00:00:00".toList,
      "MEM | tot 1.2.3G | free 1G".toList]) = .error .valueError := by
  decide

/-- C3 amended: a file that opens raises no error provided every
timestamp-matching line carries a valid calendar date-time and the numeric
groups of every MEM/SWP-matching line are well-formed floats; all other
malformed or unmatched lines are silently skipped, and only the unopenable
file surfaces an error. -/
theorem C3_no_raise_amended (lines : List (List Char))
    (h : ∀ l ∈ lines, lineOK l = true) :
    parse_atop_log none = .error .fileNotFound ∧
    ∃ samples, parse_atop_log (some lines) = .ok samples :=
  ⟨rfl, runLines_ok lines h ⟨none, none⟩⟩

/-- Witness for C3 amended: a file with a valid header line and an
unmatched junk line parses without error. -/
theorem C3_no_raise_amended_witness :
    (∀ l ∈ [("ATOP - host 2024/01/01 00:00:00".toList : List Char), "junk".toList],
      lineOK l = true) ∧
    (parse_atop_log none = .error .fileNotFound ∧
      ∃ samples, parse_atop_log
        (some ["ATOP - host 2024/01/01 00:00:00".toList, "junk".toList]) = .ok samples) :=
  ⟨by decide, C3_no_raise_amended _ (by decide)⟩

/-- C5: emitting a Sample never modifies the parse state — in particular
the memory fragment is not cleared — so a file with one timestamp line, one
memory line and two consecutive swap lines yields exactly two Samples that
reuse the same memory values. -/
theorem C5_mem_fragment_reuse :
    (∀ (st st1 : PState) (line : List Char) (smp : Sample),
      processLine st line = .ok (st1, some smp) → st1 = st) ∧
    parse_atop_log (some ["ATOP - host 2024/01/01 00:00:00".toList,
      "MEM | tot 16.0G | free 8.0G".toList, "SWP | tot 2G | free 1G".toList,
      "SWP | tot 2G | free 0.5G".toList]) =
      .ok [⟨⟨2024, 1, 1, 0, 0, 0⟩, 16, 8, 2, 1⟩, ⟨⟨2024, 1, 1, 0, 0, 0⟩, 16, 8, 2, 1/2⟩] := by
  refine ⟨?_, by decide⟩
  intro st st1 line smp h
  exact (processLine_emit_inv h).1

/-- Witness for C5: the no-state-change conjunct applied at a concrete
emission. -/
theorem C5_mem_fragment_reuse_witness :
    processLine ⟨some ⟨2024, 1, 1, 0, 0, 0⟩, some (16, 8)⟩ "SWP | tot 2G | free 1G".toList =
      .ok (⟨some ⟨2024, 1, 1, 0, 0, 0⟩, some (16, 8)⟩,
        some ⟨⟨2024, 1, 1, 0, 0, 0⟩, 16, 8, 2, 1⟩) ∧
    (⟨some ⟨2024, 1, 1, 0, 0, 0⟩, some (16, 8)⟩ : PState) =
      ⟨some ⟨2024, 1, 1, 0, 0, 0⟩, some (16, 8)⟩ :=
  ⟨by decide, C5_mem_fragment_reuse.1 ⟨some ⟨2024, 1, 1, 0, 0, 0⟩, some (16, 8)⟩ _
    "SWP | tot 2G | free 1G".toList ⟨⟨2024, 1, 1, 0, 0, 0⟩, 16, 8, 2, 1⟩ (by decide)⟩

/-- C6: a failing file in a directory is caught and skipped; every Sample
of every file that parses successfully still appears in the final merged
result. -/
theorem C6_partial_failure (files : List (Option (List (List Char))))
    (f : Option (List (List Char))) (rows : List Sample) (x : Sample)
    (hf : f ∈ files) (hp : parse_atop_log f = .ok rows) (hx : x ∈ rows) :
    ∃ merged, parse_atop_directory (some files) = .ok merged ∧ x ∈ merged := by
  have hne : rows ≠ [] := List.ne_nil_of_mem hx
  have hmem := collectData_mem hf hp hne
  have hcne : collectData files ≠ [] := List.ne_nil_of_mem hmem
  have hfne : files ≠ [] := List.ne_nil_of_mem hf
  refine ⟨sortByTs (collectData files).flatten,
    by simp [parse_atop_directory, hfne, hcne], ?_⟩
  have hxj : x ∈ (collectData files).flatten := List.mem_flatten.mpr ⟨rows, hmem, hx⟩
  simp only [sortByTs]
  exact ((List.mergeSort_perm _ _).mem_iff).mpr hxj

/-- Witness for C6: a directory with an unopenable file, a file that makes
the parser raise, and a valid file; the valid file's Sample appears. -/
theorem C6_partial_failure_witness :
    ∃ merged, parse_atop_directory (some [none,
        some ["ATOP - host 2024/13/01 00:00:00".toList],
        some ["ATOP - host 2024/01/01 00:00:00".toList, "MEM | tot 1G | free 1G".toList,
          "SWP | tot 1G | free 1G".toList]]) = .ok merged ∧
      (⟨⟨2024, 1, 1, 0, 0, 0⟩, 1, 1, 1, 1⟩ : Sample) ∈ merged :=
  C6_partial_failure _
    (some ["ATOP - host 2024/01/01 00:00:00".toList, "MEM | tot 1G | free 1G".toList,
      "SWP | tot 1G | free 1G".toList])
    [⟨⟨2024, 1, 1, 0, 0, 0⟩, 1, 1, 1, 1⟩] ⟨⟨2024, 1, 1, 0, 0, 0⟩, 1, 1, 1, 1⟩
    (by simp) (by decide) (by simp)

/-- C7: the report generator writes nothing for an empty Sample sequence,
and for a non-empty one it always writes the CSV and the static chart. -/
theorem C7_report_writes (data : List Sample) (outName : List Char) (genHtml : Bool) :
    (data = [] → generate_report data outName genHtml = []) ∧
    (data ≠ [] →
      outName ++ ".csv".toList ∈ generate_report data outName genHtml ∧
      outName ++ "_memory_swap.png".toList ∈ generate_report data outName genHtml) := by
  constructor
  · intro h; simp [generate_report, h]
  · intro h; constructor <;> simp [generate_report, h]

/-- Witness for C7: no writes on empty data; CSV and PNG written for a
one-Sample sequence. -/
theorem C7_report_writes_witness :
    generate_report [] "memory_report".toList false = [] ∧
    ("memory_report".toList ++ ".csv".toList ∈
      generate_report [⟨⟨2024, 1, 1, 0, 0, 0⟩, 16, 8, 2, 1⟩] "memory_report".toList false ∧
    "memory_report".toList ++ "_memory_swap.png".toList ∈
      generate_report [⟨⟨2024, 1, 1, 0, 0, 0⟩, 16, 8, 2, 1⟩] "memory_report".toList false) :=
  ⟨(C7_report_writes [] "memory_report".toList false).1 rfl,
    (C7_report_writes [⟨⟨2024, 1, 1, 0, 0, 0⟩, 16, 8, 2, 1⟩] "memory_report".toList false).2
      (by decide)⟩

/-- C8: the directory aggregator errors exactly on a non-directory path
(with FileNotFoundError), and returns an empty sequence — not an error —
for an empty directory or a directory none of whose files yields rows. -/
theorem C8_directory_errors :
    (∀ dir, (∃ e, parse_atop_directory dir = .error e) ↔ dir = none) ∧
    parse_atop_directory none = .error .fileNotFound ∧
    (∀ files, (∀ f ∈ files, ∀ rows, parse_atop_log f = .ok rows → rows = []) →
      parse_atop_directory (some files) = .ok []) := by
  refine ⟨?_, rfl, ?_⟩
  · intro dir
    constructor
    · rintro ⟨e, he⟩
      cases dir with
      | none => rfl
      | some files =>
        obtain ⟨m, hm⟩ := parse_atop_directory_some_ok files
        rw [hm] at he
        exact Except.noConfusion he
    · rintro rfl
      exact ⟨.fileNotFound, rfl⟩
  · intro files h
    have hc : collectData files = [] := by
      apply List.filterMap_eq_nil_iff.mpr
      intro f hf
      cases hp : parse_atop_log f with
      | error e => simp [hp]
      | ok rows => simp [hp, h f hf rows hp]
    by_cases h1 : files = []
    · simp [parse_atop_directory, h1]
    · simp [parse_atop_directory, h1, hc]

/-- Witness for C8: a directory whose single file yields no rows gives an
empty result and no error. -/
theorem C8_directory_errors_witness :
    ((∃ e, parse_atop_directory (some [some ["junk".toList]]) = .error e) ↔
      (some [some ["junk".toList]] : Option (List (Option (List (List Char))))) = none) ∧
    parse_atop_directory (some [some ["junk".toList]]) = .ok [] :=
  ⟨C8_directory_errors.1 (some [some ["junk".toList]]),
    C8_directory_errors.2.2 [some ["junk".toList]] (by
      intro f hf rows hp
      simp only [List.mem_singleton] at hf
      subst hf
      rw [show parse_atop_log (some ["junk".toList]) = .ok [] from by decide] at hp
      exact (Except.ok.inj hp).symm)⟩

/-- C9: a header `ATOP - <hostname> ...` whose hostname token contains a
hyphen or a dot is not a timestamp line — the `\w+` hostname pattern
rejects it — and the whole line is skipped, leaving the state (and hence
the pairing of subsequent memory/swap lines) to the previous timestamp. -/
theorem C9_hostname_word_chars (host rest : List Char) (st : PState)
    (hsp : ∀ c ∈ host, isSpaceChar c = false)
    (hdash : ∃ c ∈ host, c = '-' ∨ c = '.') :
    tsMatch ("ATOP - ".toList ++ host ++ rest) = none ∧
    processLine st ("ATOP - ".toList ++ host ++ rest) = .ok (st, none) := by
  have hbad : ∃ c ∈ host, isWordChar c = false := by
    obtain ⟨c, hc, hcc⟩ := hdash
    rcases hcc with rfl | rfl
    · exact ⟨_, hc, by decide⟩
    · exact ⟨_, hc, by decide⟩
  have hts := tsMatch_badHost host rest hsp hbad
  have hline : "ATOP - ".toList ++ host ++ rest =
      'A' :: (['T', 'O', 'P', ' ', '-', ' '] ++ host ++ rest) := by
    simp [atopChars]
  have hmm : memMatch ("ATOP - ".toList ++ host ++ rest) = none := by
    rw [hline, memMatch, memChars]
    exact memLike_none_of_head (by decide)
  have hsw : swpMatch ("ATOP - ".toList ++ host ++ rest) = none := by
    rw [hline, swpMatch, swpChars]
    exact memLike_none_of_head (by decide)
  exact ⟨hts, processLine_skip hts hmm hsw⟩

/-- Witness for C9: the hostname `my-host` defeats the timestamp regex. -/
theorem C9_hostname_word_chars_witness :
    tsMatch ("ATOP - ".toList ++ "my-host".toList ++ " 2024/01/01 00:00:00".toList) = none ∧
    processLine ⟨none, none⟩
      ("ATOP - ".toList ++ "my-host".toList ++ " 2024/01/01 00:00:00".toList) =
      .ok (⟨none, none⟩, none) :=
  C9_hostname_word_chars "my-host".toList " 2024/01/01 00:00:00".toList ⟨none, none⟩
    (by decide) (by decide)

/-- C10: every Sample the file parser emits has nonnegative memory and swap
fields: the `[\d.]+` groups denote nonnegative decimals and division by
1024 preserves the sign. -/
theorem C10_nonneg_fields (lines : List (List Char)) (samples : List Sample)
    (h : parse_atop_log (some lines) = .ok samples) :
    ∀ s ∈ samples, 0 ≤ s.mem_tot ∧ 0 ≤ s.mem_free ∧ 0 ≤ s.swp_tot ∧ 0 ≤ s.swp_free := by
  have h0 : ∀ p : ℚ × ℚ, (PState.mk none none).mem = some p → 0 ≤ p.1 ∧ 0 ≤ p.2 := by
    intro p hp
    exact Option.noConfusion hp
  exact runLines_nonneg h0 h

/-- Witness for C10: the example file's Sample has nonnegative fields. -/
theorem C10_nonneg_fields_witness :
    0 ≤ (⟨⟨2024, 1, 1, 0, 0, 0⟩, 16, 8, 2, 1⟩ : Sample).mem_tot ∧
    0 ≤ (⟨⟨2024, 1, 1, 0, 0, 0⟩, 16, 8, 2, 1⟩ : Sample).mem_free ∧
    0 ≤ (⟨⟨2024, 1, 1, 0, 0, 0⟩, 16, 8, 2, 1⟩ : Sample).swp_tot ∧
    0 ≤ (⟨⟨2024, 1, 1, 0, 0, 0⟩, 16, 8, 2, 1⟩ : Sample).swp_free :=
  C10_nonneg_fields ["ATOP - host 2024/01/01 00:00:00".toList,
    "MEM | tot 16.0G | free 8.0G".toList, "SWP | tot 2048M | free 1024M".toList]
    [⟨⟨2024, 1, 1, 0, 0, 0⟩, 16, 8, 2, 1⟩] (by decide)
    ⟨⟨2024, 1, 1, 0, 0, 0⟩, 16, 8, 2, 1⟩ (List.mem_singleton.mpr rfl)

end

end Atop
